import Mathlib

/-!
Shallow embedding of the mytodo offline-sync subsystem
(`SyncManager` in the first unnamed source file and `TodoApp.removeTag`
in `scripts/app.js`), together with theorems settling the specification
claims about it.

Storage collections are modelled as lists of keyed records; `put` is the
keyed upsert the structured store performs, `delete` removes by key, and
a bulk `put` is the sequence of single-record upserts the code issues.
Drain passes are modelled with an explicit environment supplying the
per-item delivery outcome (the remote call is simulated in the source),
the outcome of the initial queue read, and the current clock value.
-/

namespace MyTodo

/-- A task record as persisted in the `tasks` collection. -/
structure Task where
  id : String
  title : String
  tag : String
  due : String
  done : Bool
  createdAt : Nat
  updatedAt : Nat
  synced : Bool
  deriving Repr, DecidableEq

/-- A tag record as persisted in the `tags` collection (key: `name`). -/
structure Tag where
  name : String
  createdAt : Nat
  deriving Repr, DecidableEq

/-- A metadata record as persisted in the `metadata` collection (key: `key`). -/
structure MetadataEntry where
  key : String
  value : String
  updatedAt : Nat
  deriving Repr, DecidableEq

/-- A pending sync-queue entry, as built by `addToSyncQueue`. -/
structure SyncItem where
  id : String
  operation : String
  entityType : String
  data : String
  timestamp : Nat
  retryCount : Nat
  maxRetries : Nat
  deriving Repr, DecidableEq

/-- The four collections of the durable store (`tasks`, `tags`,
`metadata`, `pendingSync`). -/
structure Store where
  tasks : List Task
  tags : List Tag
  metadata : List MetadataEntry
  pendingSync : List SyncItem
  deriving Repr, DecidableEq

/-- Keyed upsert: `store.put(item)` replaces the record holding the same
key, else adds the record. -/
def putByKey {α : Type} (key : α → String) (item : α) : List α → List α
  | [] => [item]
  | x :: xs => if key x = key item then item :: xs else x :: putByKey key item xs

/-- Bulk save: `bulkSave` performs one single-record `put` per list element. -/
def putList {α : Type} (key : α → String) (items : List α) (coll : List α) : List α :=
  items.foldl (fun c i => putByKey key i c) coll

/-- Deletion by key: `store.delete(key)` removes every record holding the key. -/
def deleteByKey {α : Type} (key : α → String) (k : String) (coll : List α) : List α :=
  coll.filter (fun x => key x ≠ k)

/-- Embedding of `addToSyncQueue`: the sync item built for a fresh mutation
(`retryCount: 0, maxRetries: 3`). -/
def mkSyncItem (newId op entity payload : String) (now : Nat) : SyncItem :=
  { id := newId
    operation := op
    entityType := entity
    data := payload
    timestamp := now
    retryCount := 0
    maxRetries := 3 }

/-- Embedding of `handleSyncFailure(item)`: increment `item.retryCount`; if the new
count reaches `item.maxRetries` delete the entry from `pendingSync`,
otherwise write the entry back with the incremented counter. -/
def handleSyncFailure (item : SyncItem) (q : List SyncItem) : List SyncItem :=
  let bumped : SyncItem := { item with retryCount := item.retryCount + 1 }
  if bumped.retryCount ≥ bumped.maxRetries then
    deleteByKey SyncItem.id bumped.id q
  else
    putByKey SyncItem.id bumped q

/-- The per-item loop of `processSyncQueue`: iterate over the snapshot
`pendingItems`; delivery success (`syncSingleItem` returns) deletes the
entry from the queue, delivery failure runs `handleSyncFailure`; either
way the loop proceeds to the next entry. -/
def processItems (deliver : SyncItem → Bool) :
    List SyncItem → List SyncItem → List SyncItem
  | [], q => q
  | item :: rest, q =>
    if deliver item then
      processItems deliver rest (deleteByKey SyncItem.id item.id q)
    else
      processItems deliver rest (handleSyncFailure item q)

/-- The aggregate completion event dispatched by `notifySyncComplete`. -/
structure SyncEvent where
  success : Bool
  error : Option String
  deriving Repr, DecidableEq

/-- The mutable fields of `SyncManager` the drain logic touches. -/
structure SyncManager where
  store : Store
  isOnline : Bool
  lastSyncTime : Option Nat
  deriving Repr, DecidableEq

/-- Environment of one drain pass: the outcome of each simulated remote
delivery, whether the initial read of `pendingSync` fails (and with what
message), and the current clock. -/
structure DrainEnv where
  deliver : SyncItem → Bool
  readErr : Option String
  now : Nat

/-- Embedding of `processSyncQueue` (drain): return immediately when offline; abort
with a failure notification when the queue read fails; return when the
queue is empty; otherwise run the per-item loop, then update
`lastSyncTime` and emit one success notification. -/
def processSyncQueue (env : DrainEnv) (m : SyncManager) :
    SyncManager × List SyncEvent :=
  if !m.isOnline then
    (m, [])
  else
    match env.readErr with
    | some msg => (m, [{ success := false, error := some msg }])
    | none =>
      let pendingItems := m.store.pendingSync
      if pendingItems.isEmpty then
        (m, [])
      else
        let q := processItems env.deliver pendingItems m.store.pendingSync
        ({ m with
            store := { m.store with pendingSync := q }
            lastSyncTime := some env.now },
          [{ success := true, error := none }])

/-- Embedding of `forceSyncNow`: throw when offline, else await `processSyncQueue`. -/
def forceSyncNow (env : DrainEnv) (m : SyncManager) :
    Except String (SyncManager × List SyncEvent) :=
  if !m.isOnline then
    Except.error "Cannot sync while offline"
  else
    Except.ok (processSyncQueue env m)

/-- The `data` section of a backup snapshot. -/
structure BackupData where
  tasks : List Task
  tags : List Tag
  metadata : List MetadataEntry
  deriving Repr, DecidableEq

/-- A backup snapshot; `data := none` models a snapshot lacking the data
section (falsy `backup.data`). -/
structure Backup where
  version : String
  timestamp : Nat
  data : Option BackupData
  deriving Repr, DecidableEq

/-- Embedding of `createBackup()`: read tasks, tags and metadata in full and wrap
them with the format version and the current time. Pure read. -/
def createBackup (now : Nat) (s : Store) : Backup :=
  { version := "1.0.0"
    timestamp := now
    data := some { tasks := s.tasks, tags := s.tags, metadata := s.metadata } }

/-- Embedding of `clearAllData()`: clear `tasks`, `tags`, `metadata` and `pendingSync`. -/
def clearAllData (_s : Store) : Store :=
  { tasks := [], tags := [], metadata := [], pendingSync := [] }

/-- Embedding of `restoreFromBackup(backup)`: reject a snapshot lacking the data
section before any destructive step; otherwise clear all collections,
then bulk-write each non-empty section of the snapshot. -/
def restoreFromBackup (backup : Backup) (s : Store) : Except String Store :=
  match backup.data with
  | none => Except.error "Invalid backup format"
  | some d =>
    let s1 := clearAllData s
    let s2 := if d.tasks.length > 0 then
        { s1 with tasks := putList Task.id d.tasks s1.tasks } else s1
    let s3 := if d.tags.length > 0 then
        { s2 with tags := putList Tag.name d.tags s2.tags } else s2
    let s4 := if d.metadata.length > 0 then
        { s3 with metadata := putList MetadataEntry.key d.metadata s3.metadata } else s3
    Except.ok s4

/-- The derived status snapshot returned by `getSyncStatus`. -/
structure SyncStatus where
  hasPendingSync : Bool
  pendingCount : Nat
  lastSyncTime : Option Nat
  isOnline : Bool
  deriving Repr, DecidableEq

/-- Embedding of `getSyncStatus()`: on a successful queue read report the pending
count; on a storage failure return the defaulted snapshot instead of
propagating the failure. -/
def getSyncStatus (readFails : Bool) (m : SyncManager) : SyncStatus :=
  if readFails then
    { hasPendingSync := false
      pendingCount := 0
      lastSyncTime := none
      isOnline := m.isOnline }
  else
    { hasPendingSync := decide (0 < m.store.pendingSync.length)
      pendingCount := m.store.pendingSync.length
      lastSyncTime := m.lastSyncTime
      isOnline := m.isOnline }

/-- A task as the UI controller (`app.js`) holds it in memory. -/
structure AppTask where
  id : String
  title : String
  tag : String
  due : String
  done : Bool
  createdAt : Nat
  deriving Repr, DecidableEq

/-- The flat in-memory state `removeTag` operates on: bare tag strings
plus the task array. -/
structure AppState where
  tags : List String
  tasks : List AppTask
  deriving Repr, DecidableEq

/-- Embedding of `TodoApp.removeTag(tagName)`: filter the tag out of the tags array
and clear the tag reference on every task whose tag equals it. -/
def removeTag (tagName : String) (st : AppState) : AppState :=
  { tags := st.tags.filter (fun tag => tag ≠ tagName)
    tasks := st.tasks.map (fun task =>
      if task.tag = tagName then { task with tag := "" } else task) }



/-! Helper lemmas about the keyed-store primitives. -/

lemma mem_deleteByKey {α : Type} (key : α → String) (k : String) (c : List α)
    (x : α) (hx : x ∈ deleteByKey key k c) : x ∈ c ∧ key x ≠ k := by
  simpa [deleteByKey] using hx

lemma mem_putByKey {α : Type} (key : α → String) (i : α) (c : List α)
    (hnd : (c.map key).Nodup) :
    ∀ x ∈ putByKey key i c, x = i ∨ (x ∈ c ∧ key x ≠ key i) := by
  induction c with
  | nil =>
      intro x hx
      simp [putByKey] at hx
      exact Or.inl hx
  | cons y ys ih =>
      intro x hx
      rw [List.map_cons, List.nodup_cons] at hnd
      rw [putByKey] at hx
      by_cases h : key y = key i
      · rw [if_pos h] at hx
        rcases List.mem_cons.mp hx with h1 | h2
        · exact Or.inl h1
        · refine Or.inr ⟨List.mem_cons_of_mem _ h2, fun hc => ?_⟩
          have hmem : key x ∈ ys.map key := List.mem_map_of_mem key h2
          rw [hc, ← h] at hmem
          exact hnd.1 hmem
      · rw [if_neg h] at hx
        rcases List.mem_cons.mp hx with h1 | h2
        · subst h1
          exact Or.inr ⟨List.mem_cons_self _ _, h⟩
        · rcases ih hnd.2 x h2 with h3 | ⟨h4, h5⟩
          · exact Or.inl h3
          · exact Or.inr ⟨List.mem_cons_of_mem _ h4, h5⟩

lemma putByKey_fresh {α : Type} (key : α → String) (i : α) :
    ∀ c : List α, key i ∉ c.map key → putByKey key i c = c ++ [i] := by
  intro c
  induction c with
  | nil => intro _; rfl
  | cons y ys ih =>
      intro hni
      rw [List.map_cons] at hni
      have hy : key y ≠ key i := fun h => hni (by rw [h]; exact List.mem_cons_self _ _)
      rw [putByKey, if_neg hy, ih (fun h => hni (List.mem_cons_of_mem _ h))]
      rfl

lemma putList_fresh {α : Type} (key : α → String) :
    ∀ (l c : List α), (l.map key).Nodup → (∀ a ∈ l, key a ∉ c.map key) →
      putList key l c = c ++ l := by
  intro l
  induction l with
  | nil => intro c _ _; simp [putList]
  | cons i t ih =>
      intro c hnd hdisj
      rw [List.map_cons, List.nodup_cons] at hnd
      have hstep : putList key (i :: t) c = putList key t (putByKey key i c) := rfl
      rw [hstep, putByKey_fresh key i c (hdisj i (List.mem_cons_self _ _))]
      rw [ih (c ++ [i]) hnd.2 ?_]
      · simp
      · intro a ha
        rw [List.map_append]
        intro hmem
        rcases List.mem_append.mp hmem with h1 | h2
        · exact hdisj a (List.mem_cons_of_mem _ ha) h1
        · simp at h2
          exact hnd.1 (h2 ▸ List.mem_map_of_mem key ha)

lemma zip_map_self {α : Type} (f : α → α) (l : List α) :
    ∀ p ∈ (l.map f).zip l, p.1 = f p.2 := by
  induction l with
  | nil => intro p hp; simp at hp
  | cons a t ih =>
      intro p hp
      rw [List.map_cons, List.zip_cons_cons] at hp
      rcases List.mem_cons.mp hp with h | h
      · subst h; rfl
      · exact ih p h

/-! Concrete fixtures used by witnesses and counterexamples. -/

/-- A concrete task used in witness states. -/
def taskA : Task :=
  { id := "t1", title := "buy milk", tag := "work", due := "", done := false
    createdAt := 1, updatedAt := 2, synced := false }

/-- A concrete tag record used in witness states. -/
def tagA : Tag := { name := "work", createdAt := 1 }

/-- A concrete metadata record used in witness states. -/
def metaA : MetadataEntry := { key := "theme", value := "light", updatedAt := 3 }

/-- A concrete queued operation with two failures already recorded. -/
def itemA : SyncItem := mkSyncItem "sync_a" "create" "task" "payloadA" 10

/-- A second concrete queued operation. -/
def itemB : SyncItem := mkSyncItem "sync_b" "update" "task" "payloadB" 11

/-- A drain environment whose queue read succeeds and where only
`itemA` is delivered successfully. -/
def envOk : DrainEnv :=
  { deliver := fun it => it.id == "sync_a", readErr := none, now := 42 }

/-- A drain environment whose queue read fails. -/
def envReadFail : DrainEnv :=
  { deliver := fun _ => true, readErr := some "Failed to open IndexedDB", now := 42 }

/-- A store holding one task, one tag, one metadata record and an empty
queue. -/
def storeA : Store := { tasks := [taskA], tags := [tagA], metadata := [metaA], pendingSync := [] }

/-- An online manager over `storeA` with an empty pending queue. -/
def mgrEmptyQ : SyncManager := { store := storeA, isOnline := true, lastSyncTime := none }

/-- An online manager whose queue holds `itemA` and `itemB`. -/
def mgrTwoItems : SyncManager :=
  { store := { storeA with pendingSync := [itemA, itemB] }
    isOnline := true, lastSyncTime := none }

/-- An offline manager over the same queue. -/
def mgrOffline : SyncManager :=
  { store := { storeA with pendingSync := [itemA, itemB] }
    isOnline := false, lastSyncTime := some 5 }

/-! Claim theorems. -/

/-- C6: a drain pass started while the connectivity flag reports offline
returns immediately with the manager state unchanged (queue untouched,
`lastSyncTime` not updated) and emits no completion notification. -/
theorem drain_offline_noop (env : DrainEnv) (m : SyncManager)
    (h : m.isOnline = false) : processSyncQueue env m = (m, []) := by
  simp [processSyncQueue, h]

/-- Witness for C6 at the concrete offline manager. -/
theorem drain_offline_noop_witness :
    processSyncQueue envOk mgrOffline = (mgrOffline, []) :=
  drain_offline_noop envOk mgrOffline rfl

/-- C7: when the initial read of the pending queue fails with a
store-level error, the pass aborts with the state unchanged (no entry
processed, `lastSyncTime` not updated) and emits exactly one completion
notification with success = false carrying the error reason. -/
theorem drain_read_failure (env : DrainEnv) (m : SyncManager) (msg : String)
    (hon : m.isOnline = true) (hread : env.readErr = some msg) :
    processSyncQueue env m = (m, [{ success := false, error := some msg }]) := by
  simp [processSyncQueue, hon, hread]

/-- Witness for C7 at the concrete failing-read environment. -/
theorem drain_read_failure_witness :
    processSyncQueue envReadFail mgrTwoItems =
      (mgrTwoItems, [{ success := false, error := some "Failed to open IndexedDB" }]) :=
  drain_read_failure envReadFail mgrTwoItems "Failed to open IndexedDB" rfl rfl

/-- Counterexample to C3 as stated: a drain pass while online on an
empty queue does NOT update `lastSyncTime` (it stays `none` instead of
becoming the current time) and emits no success report at all. -/
theorem drain_empty_counterexample :
    (processSyncQueue envOk mgrEmptyQ).1.lastSyncTime ≠ some envOk.now ∧
    (processSyncQueue envOk mgrEmptyQ).2 = [] := by
  have h : processSyncQueue envOk mgrEmptyQ = (mgrEmptyQ, []) := rfl
  rw [h]
  exact ⟨by simp [mgrEmptyQ], rfl⟩

/-- C3 amended: a drain pass while online on an empty queue returns
immediately with the whole manager state unchanged — in particular
`lastSyncTime` is NOT updated — and emits no notification. -/
theorem drain_empty_noop (env : DrainEnv) (m : SyncManager)
    (hon : m.isOnline = true) (hread : env.readErr = none)
    (hq : m.store.pendingSync = []) :
    processSyncQueue env m = (m, []) := by
  simp [processSyncQueue, hon, hread, hq]

/-- Witness for the amended C3 at the concrete empty-queue manager. -/
theorem drain_empty_noop_witness :
    processSyncQueue envOk mgrEmptyQ = (mgrEmptyQ, []) :=
  drain_empty_noop envOk mgrEmptyQ rfl rfl rfl

/-- C4: restoring from a snapshot lacking the data section fails with
the invalid-format error; the check precedes every destructive step, so
no collection is cleared and nothing is written (the error result
carries no new store state). -/
theorem restore_invalid_format (b : Backup) (s : Store) (h : b.data = none) :
    restoreFromBackup b s = Except.error "Invalid backup format" := by
  simp [restoreFromBackup, h]

/-- Witness for C4: restoring an empty-shaped snapshot fails. -/
theorem restore_invalid_format_witness :
    restoreFromBackup { version := "1.0.0", timestamp := 0, data := none } storeA =
      Except.error "Invalid backup format" :=
  restore_invalid_format { version := "1.0.0", timestamp := 0, data := none } storeA rfl

/-- C8: forceSync raises the offline error exactly when the manager is
offline (its state left untouched, since the error result carries no new
state), and when online it returns exactly the result of a drain pass. -/
theorem forceSync_spec (env : DrainEnv) (m : SyncManager) :
    (forceSyncNow env m = Except.error "Cannot sync while offline" ↔ m.isOnline = false) ∧
    (m.isOnline = true → forceSyncNow env m = Except.ok (processSyncQueue env m)) := by
  cases h : m.isOnline <;> simp [forceSyncNow, h]

/-- Witness for C8: at the concrete offline manager the call raises the
offline error; at the concrete online manager it returns the drain result. -/
theorem forceSync_spec_witness :
    forceSyncNow envOk mgrOffline = Except.error "Cannot sync while offline" ∧
    forceSyncNow envOk mgrTwoItems = Except.ok (processSyncQueue envOk mgrTwoItems) :=
  ⟨(forceSync_spec envOk mgrOffline).1.mpr rfl,
   (forceSync_spec envOk mgrTwoItems).2 rfl⟩

/-- C10: getSyncStatus never propagates the storage failure — both
branches return a plain snapshot; on a successful read the pending count
is the queue length and `hasPendingSync` holds exactly when it is
positive, and on a failed read the defaulted snapshot is returned with
the live online flag. -/
theorem getSyncStatus_spec (m : SyncManager) :
    getSyncStatus false m =
      { hasPendingSync := decide (0 < m.store.pendingSync.length)
        pendingCount := m.store.pendingSync.length
        lastSyncTime := m.lastSyncTime
        isOnline := m.isOnline } ∧
    ((getSyncStatus false m).hasPendingSync = true ↔
      0 < (getSyncStatus false m).pendingCount) ∧
    getSyncStatus true m =
      { hasPendingSync := false, pendingCount := 0
        lastSyncTime := none, isOnline := m.isOnline } := by
  refine ⟨rfl, ?_, rfl⟩
  simp [getSyncStatus]

/-- Witness for C10 at the concrete two-item manager. -/
theorem getSyncStatus_spec_witness :
    (getSyncStatus false mgrTwoItems).pendingCount = 2 ∧
    (getSyncStatus false mgrTwoItems).hasPendingSync = true ∧
    getSyncStatus true mgrTwoItems =
      { hasPendingSync := false, pendingCount := 0
        lastSyncTime := none, isOnline := true } := by
  have h := getSyncStatus_spec mgrTwoItems
  exact ⟨by rw [h.1]; rfl, by rw [h.1]; rfl, by rw [h.2.2]; rfl⟩

/-- C1: on delivery failure the entry's retry counter is incremented by
exactly one; if the incremented counter reaches `maxRetries` the entry
is deleted from the queue, otherwise it is written back with the
incremented counter; and provided the other entries already satisfy the
retry bound (and queue keys are unique, as the keyed store guarantees),
every entry still present afterwards satisfies
`retryCount ≤ maxRetries` and none with `retryCount = maxRetries`
remains. -/
theorem retry_policy_spec (item : SyncItem) (q : List SyncItem)
    (hnd : (q.map SyncItem.id).Nodup)
    (hinv : ∀ x ∈ q, x.id ≠ item.id → x.retryCount < x.maxRetries) :
    (item.retryCount + 1 ≥ item.maxRetries →
      handleSyncFailure item q = deleteByKey SyncItem.id item.id q ∧
      ∀ x ∈ handleSyncFailure item q, x.id ≠ item.id) ∧
    (item.retryCount + 1 < item.maxRetries →
      handleSyncFailure item q =
        putByKey SyncItem.id { item with retryCount := item.retryCount + 1 } q) ∧
    (∀ x ∈ handleSyncFailure item q,
      x.retryCount ≤ x.maxRetries ∧ x.retryCount ≠ x.maxRetries) := by
  by_cases hge : item.retryCount + 1 ≥ item.maxRetries
  · have hq : handleSyncFailure item q = deleteByKey SyncItem.id item.id q := by
      simp [handleSyncFailure, hge]
    refine ⟨fun _ => ⟨hq, ?_⟩, fun hlt => absurd hge (not_le.mpr hlt), ?_⟩
    · intro x hx
      rw [hq] at hx
      exact (mem_deleteByKey SyncItem.id item.id q x hx).2
    · intro x hx
      rw [hq] at hx
      obtain ⟨hxq, hxid⟩ := mem_deleteByKey SyncItem.id item.id q x hx
      have hlt := hinv x hxq hxid
      exact ⟨le_of_lt hlt, ne_of_lt hlt⟩
  · have hlt : item.retryCount + 1 < item.maxRetries := lt_of_not_ge hge
    have hq : handleSyncFailure item q =
        putByKey SyncItem.id { item with retryCount := item.retryCount + 1 } q := by
      simp only [handleSyncFailure]
      rw [if_neg hge]
    refine ⟨fun hge2 => absurd hge2 hge, fun _ => hq, ?_⟩
    intro x hx
    rw [hq] at hx
    rcases mem_putByKey SyncItem.id { item with retryCount := item.retryCount + 1 }
        q hnd x hx with h1 | ⟨h2, h3⟩
    · subst h1
      exact ⟨le_of_lt hlt, ne_of_lt hlt⟩
    · have hlt2 := hinv x h2 h3
      exact ⟨le_of_lt hlt2, ne_of_lt hlt2⟩

/-- Witness for C1: `itemA` after two recorded failures (counter 2,
bound 3) is dropped from a queue holding only it, and the bound holds
for everything that remains. -/
theorem retry_policy_spec_witness :
    handleSyncFailure { itemA with retryCount := 2 } [{ itemA with retryCount := 2 }] =
      deleteByKey SyncItem.id itemA.id [{ itemA with retryCount := 2 }] ∧
    ∀ x ∈ handleSyncFailure { itemA with retryCount := 2 } [{ itemA with retryCount := 2 }],
      x.retryCount ≤ x.maxRetries ∧ x.retryCount ≠ x.maxRetries := by
  have h := retry_policy_spec { itemA with retryCount := 2 }
      [{ itemA with retryCount := 2 }] (by simp) (by simp)
  exact ⟨(h.1 (by decide)).1, h.2.2⟩

/-- C2: a drain pass that is online and reads a non-empty queue runs the
sequential per-item loop over the snapshot (success deletes the entry
from the queue before the next one is processed, failure applies the
retry policy and the loop continues), then updates `lastSyncTime` to the
current time and emits exactly one completion notification with
success = true. -/
theorem drain_nonempty_spec (env : DrainEnv) (m : SyncManager)
    (hon : m.isOnline = true) (hread : env.readErr = none)
    (hne : m.store.pendingSync ≠ []) :
    processSyncQueue env m =
      ({ m with
          store := { m.store with
            pendingSync := processItems env.deliver m.store.pendingSync m.store.pendingSync }
          lastSyncTime := some env.now },
        [{ success := true, error := none }]) ∧
    ∀ (item : SyncItem) (rest q : List SyncItem),
      processItems env.deliver (item :: rest) q =
        (if env.deliver item then
          processItems env.deliver rest (deleteByKey SyncItem.id item.id q)
        else
          processItems env.deliver rest (handleSyncFailure item q)) := by
  constructor
  · have hne2 : m.store.pendingSync.isEmpty = false := by
      cases h : m.store.pendingSync with
      | nil => exact absurd h hne
      | cons a t => rfl
    simp [processSyncQueue, hon, hread, hne2]
  · intro item rest q
    rfl

/-- Witness for C2: draining the two-item queue where only `itemA`
is delivered emits one success notification and sets `lastSyncTime`. -/
theorem drain_nonempty_spec_witness :
    processSyncQueue envOk mgrTwoItems =
      ({ mgrTwoItems with
          store := { mgrTwoItems.store with
            pendingSync := processItems envOk.deliver mgrTwoItems.store.pendingSync mgrTwoItems.store.pendingSync }
          lastSyncTime := some envOk.now },
        [{ success := true, error := none }]) :=
  (drain_nonempty_spec envOk mgrTwoItems rfl rfl (by simp [mgrTwoItems, storeA])).1

/-- C9: removing a tag filters it out of the tag collection, deletes no
task (the task list keeps its length, with positional correspondence),
clears the tag reference on exactly those tasks whose tag equals the
removed name, and leaves every other task — and every other field of an
affected task — unchanged. -/
theorem removeTag_spec (tagName : String) (st : AppState) :
    (removeTag tagName st).tags = st.tags.filter (fun tag => tag ≠ tagName) ∧
    tagName ∉ (removeTag tagName st).tags ∧
    (removeTag tagName st).tasks.length = st.tasks.length ∧
    ∀ p ∈ (removeTag tagName st).tasks.zip st.tasks,
      (p.2.tag = tagName → p.1 = { p.2 with tag := "" }) ∧
      (p.2.tag ≠ tagName → p.1 = p.2) := by
  refine ⟨rfl, ?_, by simp [removeTag], ?_⟩
  · simp [removeTag]
  · intro p hp
    have hmap : (removeTag tagName st).tasks =
        st.tasks.map (fun task =>
          if task.tag = tagName then { task with tag := "" } else task) := rfl
    rw [hmap] at hp
    have hval := zip_map_self
      (fun task => if task.tag = tagName then { task with tag := "" } else task)
      st.tasks p hp
    constructor
    · intro h
      simp [hval, h]
    · intro h
      simp [hval, h]

/-- A concrete two-task state for the C9 witness. -/
def stC9 : AppState :=
  { tags := ["work", "home"]
    tasks :=
      [{ id := "t1", title := "a", tag := "work", due := "", done := false, createdAt := 1 },
       { id := "t2", title := "b", tag := "home", due := "", done := true, createdAt := 2 }] }

/-- Witness for C9 at a concrete state: removing "work" empties the tag
list of that name, keeps both tasks. -/
theorem removeTag_spec_witness :
    (removeTag "work" stC9).tags = ["home"] ∧
    (removeTag "work" stC9).tasks.length = 2 := by
  have h := removeTag_spec "work" stC9
  exact ⟨by rw [h.1]; rfl, by rw [h.2.2.1]; rfl⟩

lemma restore_some_eq (v : String) (t : Nat) (ts : List Task) (tg : List Tag)
    (md : List MetadataEntry) (s : Store) :
    restoreFromBackup
        { version := v, timestamp := t
          data := some { tasks := ts, tags := tg, metadata := md } } s =
      Except.ok
        { tasks := if ts.length > 0 then putList Task.id ts [] else []
          tags := if tg.length > 0 then putList Tag.name tg [] else []
          metadata := if md.length > 0 then putList MetadataEntry.key md [] else []
          pendingSync := [] } := by
  by_cases h1 : ts.length > 0 <;> by_cases h2 : tg.length > 0 <;>
    by_cases h3 : md.length > 0 <;>
    simp [restoreFromBackup, clearAllData, h1, h2, h3]

lemma putList_or_empty {α : Type} (key : α → String) (l : List α)
    (hnd : (l.map key).Nodup) :
    (if l.length > 0 then putList key l [] else []) = l := by
  cases l with
  | nil => rfl
  | cons a t =>
      rw [if_pos (by simp)]
      simpa using putList_fresh key (a :: t) [] hnd (by simp)

/-- C5: createBackup is a pure read producing exactly the
version-stamped snapshot of the three collections, and restoring that
snapshot on the untouched store (whose keyed collections have unique
keys, as the store guarantees) yields identical tasks, tags and
metadata; only the pending queue — outside the compared collections —
is reset. -/
theorem backup_roundtrip (now : Nat) (s : Store)
    (ht : (s.tasks.map Task.id).Nodup)
    (hg : (s.tags.map Tag.name).Nodup)
    (hm : (s.metadata.map MetadataEntry.key).Nodup) :
    createBackup now s =
      { version := "1.0.0", timestamp := now
        data := some { tasks := s.tasks, tags := s.tags, metadata := s.metadata } } ∧
    restoreFromBackup (createBackup now s) s =
      Except.ok { tasks := s.tasks, tags := s.tags, metadata := s.metadata
                  pendingSync := [] } := by
  refine ⟨rfl, ?_⟩
  have hr : restoreFromBackup (createBackup now s) s =
      Except.ok
        { tasks := if s.tasks.length > 0 then putList Task.id s.tasks [] else []
          tags := if s.tags.length > 0 then putList Tag.name s.tags [] else []
          metadata := if s.metadata.length > 0 then
            putList MetadataEntry.key s.metadata [] else []
          pendingSync := [] } :=
    restore_some_eq "1.0.0" now s.tasks s.tags s.metadata s
  rw [hr, putList_or_empty Task.id s.tasks ht, putList_or_empty Tag.name s.tags hg,
      putList_or_empty MetadataEntry.key s.metadata hm]

/-- Witness for C5 at the concrete one-task store. -/
theorem backup_roundtrip_witness :
    restoreFromBackup (createBackup 7 storeA) storeA =
      Except.ok { tasks := storeA.tasks, tags := storeA.tags
                  metadata := storeA.metadata, pendingSync := [] } :=
  (backup_roundtrip 7 storeA (by decide) (by decide) (by decide)).2
end MyTodo
